import Mathlib

/-!
# Verification of the adapy FEM translation-pipeline specification

The repository ships only build tooling and example notebooks under version
control here; the core pipeline (unified FEM model, model merger, solver
backend adapters, execution orchestrator) is therefore modelled from the
specification document, faithfully to its words.  Every definition below whose
doc comment starts with `Modelled from the spec:` embeds a component that the
specification describes but whose source file is not present.
-/

namespace Adapy

/-- Modelled from the spec: a mesh node — "identifier (positive integer,
unique within a Unified FEM Model), 3D coordinate" (§3).  Coordinates are
modelled as rationals. -/
structure Node where
  id : Nat
  x : ℚ
  y : ℚ
  z : ℚ
deriving DecidableEq

/-- Modelled from the spec: element-type tag, "line/shell/solid family +
interpolation order" (§3). -/
inductive ElemFamily where
  | line
  | shell
  | solid
deriving DecidableEq

/-- Modelled from the spec: element-type tag with interpolation order (§3). -/
structure ElemType where
  family : ElemFamily
  order : Nat
deriving DecidableEq

/-- Modelled from the spec: an element — "identifier (unique within model),
element-type tag, ordered sequence of node identifiers" (§3). -/
structure Element where
  id : Nat
  etype : ElemType
  conn : List Nat
deriving DecidableEq

/-- Modelled from the spec: a set is "typed as node-set or element-set" (§3). -/
inductive SetType where
  | nset
  | elset
deriving DecidableEq

/-- Modelled from the spec: a set — "named, typed as node-set or element-set,
holds an ordered sequence of member identifiers" (§3).  Mirrors FemSet in the
example notebooks. -/
structure FemSet where
  name : String
  ty : SetType
  members : List Nat
deriving DecidableEq

/-- Modelled from the spec: a material — "named property records (elastic
modulus, density, etc.)" (§3). -/
structure Material where
  name : String
  emod : ℚ
  density : ℚ
deriving DecidableEq

/-- Modelled from the spec: a section — named cross-section property record
referenced by elements by name (§3). -/
structure FemSection where
  name : String
  area : ℚ
deriving DecidableEq

/-- Modelled from the spec: a boundary condition — "references a node-set and
a list of restrained degrees of freedom (1–6)" (§3).  Mirrors Bc in the
example notebooks.  The set is referenced by its name. -/
structure Bc where
  name : String
  setName : String
  dofs : List Nat
deriving DecidableEq

/-- Modelled from the spec: load type tag — "gravity, concentrated force,
pressure, etc." (§3). -/
inductive LoadType where
  | gravity
  | concentrated
  | pressure
deriving DecidableEq

/-- Modelled from the spec: a load — "named, typed, references a set and
carries magnitude/direction" (§3).  Mirrors Load in the example notebooks. -/
structure Load where
  name : String
  ty : LoadType
  magnitude : ℚ
  setName : String
deriving DecidableEq

/-- Modelled from the spec: the two step kinds — "static-implicit with
time/increment parameters, or eigenfrequency with requested mode count"
(§3); mirrors StepImplicit and StepEigen from the example notebooks. -/
inductive StepKind where
  | staticImplicit (initIncr : ℚ) (totalTime : ℚ) (nlGeom : Bool)
  | eigen (numEigenModes : Nat)
deriving DecidableEq

/-- Modelled from the spec: an ordered analysis stage; "boundary
conditions/loads are attached per step" (§3). -/
structure Step where
  name : String
  kind : StepKind
  loads : List Load
deriving DecidableEq

/-- Modelled from the spec: the UnifiedFemModel aggregate root "owning all
Nodes, Elements, Sets, Materials, Sections, Steps" (§3), with containers in
insertion order (§4.1). -/
structure FemModel where
  nodes : List Node
  elements : List Element
  sets : List FemSet
  materials : List Material
  sections : List FemSection
  bcs : List Bc
  loads : List Load
  steps : List Step
deriving DecidableEq

/-- Modelled from the spec: the error taxonomy of §7 relevant to model
construction and merging. -/
inductive FemError where
  | referenceError (what : String)
  | duplicateIdError (what : String)
  | mergeConflictError (what : String)
deriving DecidableEq

/-- The empty model. -/
def FemModel.empty : FemModel :=
  ⟨[], [], [], [], [], [], [], []⟩

/-- The node identifiers of a model, in insertion order. -/
def FemModel.nodeIds (m : FemModel) : List Nat :=
  m.nodes.map (·.id)

/-- The element identifiers of a model, in insertion order. -/
def FemModel.elemIds (m : FemModel) : List Nat :=
  m.elements.map (·.id)

/-- Whether a set of the given type and name exists in the model. -/
def FemModel.hasSet (m : FemModel) (ty : SetType) (name : String) : Prop :=
  ∃ s ∈ m.sets, s.ty = ty ∧ s.name = name

instance (m : FemModel) (ty : SetType) (name : String) :
    Decidable (m.hasSet ty name) := by
  unfold FemModel.hasSet
  infer_instance

/-- Whether a set of the given name (of either type) exists in the model. -/
def FemModel.hasSetNamed (m : FemModel) (name : String) : Prop :=
  ∃ s ∈ m.sets, s.name = name

instance (m : FemModel) (name : String) : Decidable (m.hasSetNamed name) := by
  unfold FemModel.hasSetNamed
  infer_instance

/-- Modelled from the spec: `add_node` — "fail with a DuplicateIdError if the
identifier already exists in the respective namespace" (§4.1); otherwise
append in insertion order. -/
def FemModel.add_node (m : FemModel) (n : Node) : Except FemError FemModel :=
  if n.id ∈ m.nodeIds then
    .error (.duplicateIdError (toString n.id))
  else
    .ok { m with nodes := m.nodes ++ [n] }

/-- Modelled from the spec: `add_element` — validates that every connectivity
entry resolves to an existing node (`ReferenceError` otherwise) and that the
element identifier is fresh (`DuplicateIdError` otherwise) (§4.1). -/
def FemModel.add_element (m : FemModel) (e : Element) : Except FemError FemModel :=
  if e.id ∈ m.elemIds then
    .error (.duplicateIdError (toString e.id))
  else if _h : ∀ i ∈ e.conn, i ∈ m.nodeIds then
    .ok { m with elements := m.elements ++ [e] }
  else
    .error (.referenceError (toString e.id))

/-- The identifier namespace a set's members must resolve in. -/
def FemModel.idsFor (m : FemModel) (ty : SetType) : List Nat :=
  match ty with
  | .nset => m.nodeIds
  | .elset => m.elemIds

/-- Modelled from the spec: `add_set` — validates that every member resolves
to an existing node/element (`ReferenceError` otherwise) and that "a set name
must be unique within its type scope per model" (§3, §4.1).  Returns the set
just added, as `part.fem.add_set(FemSet(...))` does in the notebooks. -/
def FemModel.add_set (m : FemModel) (s : FemSet) :
    Except FemError (FemModel × FemSet) :=
  if m.hasSet s.ty s.name then
    .error (.duplicateIdError s.name)
  else if _h : ∀ i ∈ s.members, i ∈ m.idsFor s.ty then
    .ok ({ m with sets := m.sets ++ [s] }, s)
  else
    .error (.referenceError s.name)

/-- Modelled from the spec: `add_material` (§4.1); material names are the
reference namespace for elements, kept unique. -/
def FemModel.add_material (m : FemModel) (mat : Material) :
    Except FemError FemModel :=
  if mat.name ∈ m.materials.map (·.name) then
    .error (.duplicateIdError mat.name)
  else
    .ok { m with materials := m.materials ++ [mat] }

/-- Modelled from the spec: `add_boundary_condition` — "Boundary condition
referencing a set not present in the model must fail with ReferenceError
before any deck is written" (§8); validation happens eagerly at this call
(§7).  Mirrors `assembly.fem.add_bc(Bc(...))` in the notebooks. -/
def FemModel.add_bc (m : FemModel) (bc : Bc) : Except FemError FemModel :=
  if m.hasSet .nset bc.setName then
    .ok { m with bcs := m.bcs ++ [bc] }
  else
    .error (.referenceError bc.setName)

/-- Modelled from the spec: `add_load` — "references a set ...; invariant —
referenced set must exist" (§3), validated eagerly (§4.1, §7). -/
def FemModel.add_load (m : FemModel) (l : Load) : Except FemError FemModel :=
  if m.hasSetNamed l.setName then
    .ok { m with loads := m.loads ++ [l] }
  else
    .error (.referenceError l.setName)

/-- Modelled from the spec: `add_step` — appends an ordered analysis stage
(§3, §4.1) and returns the step just added, as
`step = a.fem.add_step(StepImplicit(...))` does in the notebooks. -/
def FemModel.add_step (m : FemModel) (st : Step) :
    Except FemError (FemModel × Step) :=
  .ok ({ m with steps := m.steps ++ [st] }, st)

/-- Modelled from the spec: attaching a load to a previously added step —
"boundary conditions/loads are attached per step" (§3); mirrors
`step.add_load(Load(...))` in the notebooks.  Validates eagerly that the
step exists in the model and that the load's referenced set exists. -/
def FemModel.add_load_to_step (m : FemModel) (stepName : String) (l : Load) :
    Except FemError FemModel :=
  if _h : ∃ st ∈ m.steps, st.name = stepName then
    if m.hasSetNamed l.setName then
      .ok { m with steps :=
        m.steps.map fun st =>
          if st.name = stepName then { st with loads := st.loads ++ [l] } else st }
    else
      .error (.referenceError l.setName)
  else
    .error (.referenceError stepName)

/-- One more than the largest identifier in a list (`0` when empty): the
seed for the merger's "monotonically increasing counters ... seeded above
the current global maximum" (§4.2). -/
def maxIdOf (ids : List Nat) : Nat :=
  ids.foldr max 0

/-- Modelled from the spec: the Model Merger's old-id→new-id mapping for one
namespace (§4.2) — "renumber only if a collision with already-merged ids
would occur — never renumber IDs that are already globally unique".  `used`
holds the identifiers already present in the global model, `counter` the
next free identifier (kept above every identifier in play). -/
def buildMapping (used : List Nat) (counter : Nat) : List Nat → List (Nat × Nat)
  | [] => []
  | o :: rest =>
    if o ∈ used then
      (o, counter) :: buildMapping used (counter + 1) rest
    else
      (o, o) :: buildMapping used counter rest

/-- Look an old identifier up in a merge mapping; identifiers outside the
mapping are left unchanged. -/
def applyMap (mp : List (Nat × Nat)) (i : Nat) : Nat :=
  (mp.lookup i).getD i

/-- The node-id mapping the merger uses when merging `b` into `a`. -/
def FemModel.mergeNodeMap (a b : FemModel) : List (Nat × Nat) :=
  buildMapping a.nodeIds (maxIdOf (a.nodeIds ++ b.nodeIds) + 1) b.nodeIds

/-- The element-id mapping the merger uses when merging `b` into `a`. -/
def FemModel.mergeElemMap (a b : FemModel) : List (Nat × Nat) :=
  buildMapping a.elemIds (maxIdOf (a.elemIds ++ b.elemIds) + 1) b.elemIds

/-- Rewrite one set's members through the merge mappings, picking the
mapping that matches the set's namespace. -/
def FemSet.remap (nmap emap : List (Nat × Nat)) (s : FemSet) : FemSet :=
  match s.ty with
  | .nset => { s with members := s.members.map (applyMap nmap) }
  | .elset => { s with members := s.members.map (applyMap emap) }

/-- Modelled from the spec: the Model Merger (§4.2) for one pair of
sub-models — "build an old-id→new-id mapping for nodes and elements ...;
apply the mapping to every set member, BC/load reference, and element
connectivity list before inserting into the global model".  Node coordinates
and element connectivity (up to the mapping) are untouched; coincident nodes
are intentionally not deduplicated. -/
def FemModel.merge (a b : FemModel) : FemModel :=
  let nmap := a.mergeNodeMap b
  let emap := a.mergeElemMap b
  { nodes := a.nodes ++ b.nodes.map fun n => { n with id := applyMap nmap n.id }
    elements := a.elements ++ b.elements.map fun e =>
      { e with id := applyMap emap e.id, conn := e.conn.map (applyMap nmap) }
    sets := a.sets ++ b.sets.map (FemSet.remap nmap emap)
    materials := a.materials ++ b.materials
    sections := a.sections ++ b.sections
    bcs := a.bcs ++ b.bcs
    loads := a.loads ++ b.loads
    steps := a.steps ++ b.steps }

/-- Referential integrity of a model: every element connectivity entry, set
member, BC set reference and load set reference (top-level and per-step)
resolves within the model (§3, invariants of UnifiedFemModel). -/
def FemModel.validRefs (m : FemModel) : Prop :=
  (∀ e ∈ m.elements, ∀ i ∈ e.conn, i ∈ m.nodeIds) ∧
  (∀ s ∈ m.sets, ∀ i ∈ s.members, i ∈ m.idsFor s.ty) ∧
  (∀ bc ∈ m.bcs, m.hasSet .nset bc.setName) ∧
  (∀ l ∈ m.loads, m.hasSetNamed l.setName) ∧
  (∀ st ∈ m.steps, ∀ l ∈ st.loads, m.hasSetNamed l.setName)

instance (m : FemModel) : Decidable m.validRefs := by
  unfold FemModel.validRefs
  infer_instance

/-- Identifier uniqueness: "all identifiers are unique within their
namespace (node IDs unique among nodes, element IDs unique among elements)"
(§3). -/
def FemModel.uniqueIds (m : FemModel) : Prop :=
  m.nodeIds.Nodup ∧ m.elemIds.Nodup

instance (m : FemModel) : Decidable m.uniqueIds := by
  unfold FemModel.uniqueIds
  infer_instance

/-- Modelled from the spec: the solver backend variants — "Polymorphic over
backend variants (at minimum Dialect::StaticSolverA, Dialect::StaticSolverB,
each may also support eigenfrequency steps)" (§4.3), represented as a tagged
variant (§9). -/
inductive Dialect where
  | staticSolverA
  | staticSolverB
deriving DecidableEq

/-- Modelled from the spec: each dialect's supported_step_types capability
set (§9).  Solver A supports static-implicit and eigenfrequency steps;
solver B supports only static-implicit steps. -/
def Dialect.supportsStep : Dialect → StepKind → Bool
  | _, .staticImplicit _ _ _ => true
  | .staticSolverA, .eigen _ => true
  | .staticSolverB, .eigen _ => false

/-- The display name of a dialect, used in the deck header. -/
def Dialect.displayName : Dialect → String
  | .staticSolverA => "STATIC-SOLVER-A"
  | .staticSolverB => "STATIC-SOLVER-B"

/-- Modelled from the spec: write-side errors of §7 — `WriteError`, with the
`UnsupportedFeatureError` kind "naming the offending step" (§4.3). -/
inductive WriteError where
  | unsupportedFeature (stepName : String)
  | writeFailure (what : String)
deriving DecidableEq

/-- Modelled from the spec: one record of a solver deck.  "Each dialect's
grammar is solver-specific (fixed-width or keyword/value text records)"
(§4.3); the grammar itself is an external contract the spec does not pin
down, so the deck is embedded as its sequence of records, each rendered to
one text line. -/
inductive DeckRec where
  | header (dialect : String)
  | nodeRec (id : Nat) (x y z : ℚ)
  | elementRec (id : Nat) (etype : ElemType) (conn : List Nat)
  | materialRec (name : String) (emod density : ℚ)
  | setHeader (ty : SetType) (name : String)
  | setMember (id : Nat)
  | bcRec (name setName : String) (dofs : List Nat)
  | loadRec (name setName : String) (magnitude : ℚ)
  | stepRec (name : String) (kind : StepKind)
deriving DecidableEq

/-- Keyword tag of a set type in the deck grammar. -/
def SetType.tag : SetType → String
  | .nset => "NSET"
  | .elset => "ELSET"

/-- Comma-joined identifier list for the rendered deck. -/
def renderIds (ids : List Nat) : String :=
  String.intercalate "," (ids.map toString)

/-- Render one deck record to its text line. -/
def DeckRec.render : DeckRec → String
  | .header d => "** DECK FOR " ++ d
  | .nodeRec i x y z =>
      "NODE," ++ toString i ++ "," ++ toString x ++ "," ++ toString y ++ ","
        ++ toString z
  | .elementRec i t conn =>
      "ELEMENT," ++ toString i ++ "," ++ toString t.order ++ ","
        ++ renderIds conn
  | .materialRec n e d => "MATERIAL," ++ n ++ "," ++ toString e ++ "," ++ toString d
  | .setHeader ty n => "*SET," ++ ty.tag ++ "," ++ n
  | .setMember i => toString i
  | .bcRec n s dofs => "BC," ++ n ++ "," ++ s ++ "," ++ renderIds dofs
  | .loadRec n s mag => "LOAD," ++ n ++ "," ++ s ++ "," ++ toString mag
  | .stepRec n _ => "STEP," ++ n

/-- The deck records serializing a list of sets: a header record per set
followed by one member record per member, "in the model's insertion order"
(§4.3). -/
def setRecords : List FemSet → List DeckRec
  | [] => []
  | s :: rest =>
      DeckRec.setHeader s.ty s.name :: (s.members.map DeckRec.setMember
        ++ setRecords rest)

/-- Whether a record belongs to the deck's set section. -/
def DeckRec.isSetRec : DeckRec → Bool
  | .setHeader _ _ => true
  | .setMember _ => true
  | _ => false

/-- The deck records preceding the set section: header, then nodes,
elements and materials in insertion order. -/
def preRecords (d : Dialect) (m : FemModel) : List DeckRec :=
  DeckRec.header d.displayName
    :: (m.nodes.map (fun n => DeckRec.nodeRec n.id n.x n.y n.z)
      ++ (m.elements.map (fun e => DeckRec.elementRec e.id e.etype e.conn)
        ++ m.materials.map fun mt =>
          DeckRec.materialRec mt.name mt.emod mt.density))

/-- The deck records following the set section: boundary conditions, loads
and steps in insertion order. -/
def postRecords (m : FemModel) : List DeckRec :=
  m.bcs.map (fun bc => DeckRec.bcRec bc.name bc.setName bc.dofs)
    ++ (m.loads.map (fun l => DeckRec.loadRec l.name l.setName l.magnitude)
      ++ m.steps.map fun st => DeckRec.stepRec st.name st.kind)

/-- Modelled from the spec: the record-level body of `write_deck` (§4.3) —
"serializes nodes, elements, sets, materials, boundary conditions, loads,
and steps into the dialect's native text grammar", emitting sets, BCs and
loads in insertion order; a step the dialect cannot express fails with
`UnsupportedFeatureError` naming the offending step, and no deck output is
produced at all in that case. -/
def writeDeckRecords (d : Dialect) (m : FemModel) :
    Except WriteError (List DeckRec) :=
  match m.steps.find? (fun st => !(d.supportsStep st.kind)) with
  | some st => .error (.unsupportedFeature st.name)
  | none => .ok (preRecords d m ++ (setRecords m.sets ++ postRecords m))

/-- Modelled from the spec: `write_deck` (§4.3) — the rendered deck text,
one line per record; byte-identical output is required for identical input
(§8). -/
def writeDeck (d : Dialect) (m : FemModel) : Except WriteError String :=
  (writeDeckRecords d m).map fun recs =>
    String.intercalate "\n" (recs.map DeckRec.render)

/-- Modelled from the spec: the set-section scanner of the dialect's deck
reader.  Walks the deck records keeping the set currently being read; a set
header opens a new set (closing the previous one), a member record extends
the current set, and any other record closes the current set. -/
def scanSets : List DeckRec → Option FemSet → List FemSet
  | [], none => []
  | [], some s => [s]
  | r :: rest, cur =>
      match r with
      | .setHeader ty name =>
          match cur with
          | none => scanSets rest (some ⟨name, ty, []⟩)
          | some s => s :: scanSets rest (some ⟨name, ty, []⟩)
      | .setMember i =>
          match cur with
          | none => scanSets rest none
          | some s => scanSets rest (some ⟨s.name, s.ty, s.members ++ [i]⟩)
      | _ =>
          match cur with
          | none => scanSets rest none
          | some s => s :: scanSets rest none

/-- Modelled from the spec: the dialect reader's recovery of the sets from a
written deck, used for the §8 reparse property ("write_deck then a
dialect-specific reparse of the deck recovers the same ordered member list
as the original set"). -/
def parseDeckSets (recs : List DeckRec) : List FemSet :=
  scanSets recs none

/-- Modelled from the spec: one eigenmode — "(frequency, mode-shape-per-node)"
(§4.3), the shape being a per-node displacement vector (§3). -/
structure EigenMode where
  freq : ℚ
  shape : List (Nat × ℚ × ℚ × ℚ)
deriving DecidableEq

/-- Frequency order on eigenmodes. -/
def modeLe (m1 m2 : EigenMode) : Prop :=
  m1.freq ≤ m2.freq

instance : DecidableRel modeLe := fun a b =>
  inferInstanceAs (Decidable (a.freq ≤ b.freq))

instance : IsTotal EigenMode modeLe :=
  ⟨fun a b => le_total a.freq b.freq⟩

instance : IsTrans EigenMode modeLe :=
  ⟨fun _ _ _ h1 h2 => le_trans h1 h2⟩

/-- Modelled from the spec: the outcome of reading an eigenfrequency result
(§4.3, §7): either a complete mode sequence, or `IncompleteResultsError` — a
recoverable warning carrying the partial modes that were found. -/
inductive EigenReadOutcome where
  | ok (modes : List EigenMode)
  | incompleteResults (modes : List EigenMode)
deriving DecidableEq

/-- The modes carried by a read outcome (partial modes are still returned on
`IncompleteResultsError`). -/
def EigenReadOutcome.modes : EigenReadOutcome → List EigenMode
  | .ok ms => ms
  | .incompleteResults ms => ms

/-- Whether the outcome is the recoverable `IncompleteResultsError`. -/
def EigenReadOutcome.isIncomplete : EigenReadOutcome → Bool
  | .ok _ => false
  | .incompleteResults _ => true

/-- Modelled from the spec: the eigenfrequency side of `read_results` (§4.3)
— "extracts an ordered sequence of (frequency, mode-shape-per-node) in
ascending frequency order, matching the num_eigen_modes requested (fails
with IncompleteResultsError if fewer modes were found than requested —
treated as a recoverable warning)".  `found` is the raw mode list recovered
from the solver's result artifact. -/
def readEigenResults (numEigenModes : Nat) (found : List EigenMode) :
    EigenReadOutcome :=
  let sortedModes := found.insertionSort modeLe
  if found.length < numEigenModes then
    .incompleteResults sortedModes
  else
    .ok (sortedModes.take numEigenModes)

/-- Modelled from the spec: failure kinds of a finished execution (§4.4,
§7): nonzero exit status, or a zero exit whose expected result artifact is
absent from the working directory. -/
inductive FailKind where
  | exitCode (code : Int)
  | missingArtifact
deriving DecidableEq

/-- Modelled from the spec: the terminal states of the orchestrator's state
machine "Pending → Running → \x7bSucceeded, Failed(exit_code), TimedOut,
Cancelled\x7d" (§4.4). -/
inductive ExecOutcome where
  | succeeded
  | failed (kind : FailKind)
  | timedOut
  | cancelled
deriving DecidableEq

/-- Modelled from the spec: the observable behaviour of one external solver
process (§4.4, §6): how long it runs, its exit status, and whether it leaves
the expected result artifact in the working directory. -/
structure SolverProc where
  duration : Nat
  exitCode : Int
  producesArtifact : Bool
deriving DecidableEq

/-- Modelled from the spec: what one orchestrator execution reports — the
classified outcome, whether the child process is terminated on return, and
how many times the solver was launched ("never silently retried", §4.4). -/
structure ExecResult where
  outcome : ExecOutcome
  childTerminated : Bool
  invocations : Nat
deriving DecidableEq

/-- Modelled from the spec: the Execution Orchestrator's `execute` (§4.4) —
runs the solver once; if the timeout elapses first the child is terminated
and `TimedOut` reported; a nonzero exit is `Failed(exit_code)`; a zero exit
without the expected artifact is `Failed` with kind `MissingArtifact`;
`Succeeded` requires a zero exit and a located artifact.  No internal
retry exists (§5), so exactly one invocation is ever performed. -/
def execute (p : SolverProc) (timeLimit : Nat) : ExecResult :=
  if timeLimit < p.duration then
    { outcome := .timedOut, childTerminated := true, invocations := 1 }
  else if p.exitCode ≠ 0 then
    { outcome := .failed (.exitCode p.exitCode), childTerminated := true,
      invocations := 1 }
  else if p.producesArtifact then
    { outcome := .succeeded, childTerminated := true, invocations := 1 }
  else
    { outcome := .failed .missingArtifact, childTerminated := true,
      invocations := 1 }

/-! ### Example models used to witness the theorems on concrete inputs -/

/-- Linear line element type (interpolation order 1). -/
def lineType : ElemType :=
  ⟨.line, 1⟩

/-- A cantilever-beam model in the shape of §8 Scenario A: 5 nodes, 4 line
elements, a fixed-end node set and boundary condition, one eigenfrequency
step requesting 3 modes, plus an element set with a gravity load. -/
def exampleModel : FemModel where
  nodes := [⟨1, 0, 0, 0⟩, ⟨2, 1, 0, 0⟩, ⟨3, 2, 0, 0⟩, ⟨4, 3, 0, 0⟩, ⟨5, 4, 0, 0⟩]
  elements := [⟨1, lineType, [1, 2]⟩, ⟨2, lineType, [2, 3]⟩,
    ⟨3, lineType, [3, 4]⟩, ⟨4, lineType, [4, 5]⟩]
  sets := [⟨"bc_nodes", .nset, [1]⟩, ⟨"Eall", .elset, [1, 2, 3, 4]⟩]
  materials := [⟨"S420", 210000, 7850⟩]
  sections := [⟨"IPE400", 169/20⟩]
  bcs := [⟨"Fixed", "bc_nodes", [1, 2, 3, 4, 5, 6]⟩]
  loads := [⟨"grav", .gravity, -981/100, "Eall"⟩]
  steps := [⟨"Eigen", .eigen 3, []⟩]

/-- A second independently numbered sub-model whose node and element
identifiers overlap `exampleModel`'s, for merge witnesses. -/
def exampleModelB : FemModel where
  nodes := [⟨1, 5, 0, 0⟩, ⟨2, 6, 0, 0⟩, ⟨7, 7, 0, 0⟩]
  elements := [⟨1, lineType, [1, 2]⟩, ⟨9, lineType, [2, 7]⟩]
  sets := [⟨"bc_nodes_b", .nset, [1, 7]⟩]
  materials := []
  sections := []
  bcs := [⟨"FixedB", "bc_nodes_b", [1, 2, 3]⟩]
  loads := []
  steps := []

/-- The deck records solver A writes for `exampleModel`. -/
def exampleDeckRecs : List DeckRec :=
  match writeDeckRecords Dialect.staticSolverA exampleModel with
  | .ok recs => recs
  | .error _ => []

/-- Three raw eigenmodes as recovered from a result artifact, deliberately
out of frequency order. -/
def exampleModes : List EigenMode :=
  [⟨3, [(1, 0, 0, 1)]⟩, ⟨1, [(1, 0, 1, 0)]⟩, ⟨2, [(1, 1, 0, 0)]⟩]

/-- A fresh node set to add to `exampleModel`. -/
def exNewSet : FemSet :=
  ⟨"midspan", .nset, [3]⟩

/-- The example model after adding `exNewSet`. -/
def exampleModelWithSet : FemModel :=
  { exampleModel with sets := exampleModel.sets ++ [exNewSet] }

/-! ### Helper lemmas about the merge-id mapping -/

theorem mem_le_maxIdOf {x : Nat} : ∀ {l : List Nat}, x ∈ l → x ≤ maxIdOf l := by
  intro l
  induction l with
  | nil => intro h; cases h
  | cons a t ih =>
    intro hx
    rcases List.mem_cons.mp hx with h | h
    · subst h
      exact le_max_left _ _
    · exact le_trans (ih h) (le_max_right _ _)

theorem buildMapping_mem_snd {used olds : List Nat} {v : Nat} :
    ∀ {c : Nat}, v ∈ (buildMapping used c olds).map Prod.snd →
      (v ∈ olds ∧ v ∉ used) ∨ c ≤ v := by
  induction olds with
  | nil => intro c h; cases h
  | cons o rest ih =>
    intro c h
    by_cases ho : o ∈ used
    · rw [buildMapping, if_pos ho] at h
      rcases List.mem_cons.mp h with h | h
      · exact Or.inr (le_of_eq h.symm)
      · rcases ih h with ⟨hm, hu⟩ | hc
        · exact Or.inl ⟨List.mem_cons_of_mem _ hm, hu⟩
        · exact Or.inr (le_trans (Nat.le_succ c) hc)
    · rw [buildMapping, if_neg ho] at h
      rcases List.mem_cons.mp h with h | h
      · exact Or.inl ⟨h ▸ List.mem_cons_self o rest, h ▸ ho⟩
      · rcases ih h with ⟨hm, hu⟩ | hc
        · exact Or.inl ⟨List.mem_cons_of_mem _ hm, hu⟩
        · exact Or.inr hc

theorem buildMapping_snd_nodup {used olds : List Nat} :
    ∀ {c : Nat}, (∀ x ∈ used, x < c) → (∀ x ∈ olds, x < c) → olds.Nodup →
      ((buildMapping used c olds).map Prod.snd).Nodup := by
  induction olds with
  | nil => intro c _ _ _; simp [buildMapping]
  | cons o rest ih =>
    intro c hu hol hnd
    have ho_rest : o ∉ rest := (List.nodup_cons.mp hnd).1
    have hrest : rest.Nodup := (List.nodup_cons.mp hnd).2
    have holr : ∀ x ∈ rest, x < c := fun x hx => hol x (List.mem_cons_of_mem _ hx)
    by_cases ho : o ∈ used
    · rw [buildMapping, if_pos ho]
      rw [List.map_cons]
      refine List.nodup_cons.mpr ⟨?_, ?_⟩
      · intro hc
        rcases buildMapping_mem_snd hc with ⟨hm, _⟩ | hge
        · exact absurd (holr _ hm) (lt_irrefl c)
        · omega
      · exact ih (fun x hx => lt_trans (hu x hx) (Nat.lt_succ_self c))
          (fun x hx => lt_trans (holr x hx) (Nat.lt_succ_self c)) hrest
    · rw [buildMapping, if_neg ho]
      rw [List.map_cons]
      refine List.nodup_cons.mpr ⟨?_, ?_⟩
      · intro hmem
        rcases buildMapping_mem_snd hmem with ⟨hm, _⟩ | hge
        · exact ho_rest hm
        · have := hol o (List.mem_cons_self o rest)
          omega
      · exact ih hu holr hrest

theorem buildMapping_snd_not_mem_used {used olds : List Nat} {c : Nat}
    (hu : ∀ x ∈ used, x < c) :
    ∀ v ∈ (buildMapping used c olds).map Prod.snd, v ∉ used := by
  intro v hv hvu
  rcases buildMapping_mem_snd hv with ⟨_, h⟩ | h
  · exact h hvu
  · have := hu v hvu
    omega

theorem applyMap_cons_self {k v : Nat} {mp : List (Nat × Nat)} :
    applyMap ((k, v) :: mp) k = v := by
  simp [applyMap, List.lookup]

theorem applyMap_cons_of_ne {k v x : Nat} {mp : List (Nat × Nat)} (h : x ≠ k) :
    applyMap ((k, v) :: mp) x = applyMap mp x := by
  have hb : (x == k) = false := beq_eq_false_iff_ne.mpr h
  simp [applyMap, List.lookup, hb]

theorem map_applyMap_eq_snd {used olds : List Nat} :
    ∀ {c : Nat}, olds.Nodup →
      olds.map (applyMap (buildMapping used c olds)) =
        (buildMapping used c olds).map Prod.snd := by
  induction olds with
  | nil => intro c _; rfl
  | cons o rest ih =>
    intro c hnd
    have ho_rest : o ∉ rest := (List.nodup_cons.mp hnd).1
    have hrest : rest.Nodup := (List.nodup_cons.mp hnd).2
    by_cases ho : o ∈ used
    · rw [buildMapping, if_pos ho, List.map_cons, List.map_cons,
        applyMap_cons_self]
      congr 1
      rw [List.map_congr_left fun x hx =>
        applyMap_cons_of_ne (by rintro rfl; exact ho_rest hx)]
      exact ih hrest
    · rw [buildMapping, if_neg ho, List.map_cons, List.map_cons,
        applyMap_cons_self]
      congr 1
      rw [List.map_congr_left fun x hx =>
        applyMap_cons_of_ne (by rintro rfl; exact ho_rest hx)]
      exact ih hrest

theorem applyMap_keep {used olds : List Nat} :
    ∀ {c o : Nat}, o ∈ olds → o ∉ used →
      applyMap (buildMapping used c olds) o = o := by
  induction olds with
  | nil => intro c o h; cases h
  | cons a rest ih =>
    intro c o hmem hu
    by_cases hoa : o = a
    · subst hoa
      rw [buildMapping, if_neg hu]
      exact applyMap_cons_self
    · have hor : o ∈ rest := by
        rcases List.mem_cons.mp hmem with h | h
        · exact absurd h hoa
        · exact h
      by_cases ha : a ∈ used
      · rw [buildMapping, if_pos ha, applyMap_cons_of_ne hoa]
        exact ih hor hu
      · rw [buildMapping, if_neg ha, applyMap_cons_of_ne hoa]
        exact ih hor hu

theorem merge_nodeIds (a b : FemModel) :
    (a.merge b).nodeIds =
      a.nodeIds ++ b.nodeIds.map (applyMap (a.mergeNodeMap b)) := by
  simp [FemModel.merge, FemModel.nodeIds, List.map_map, Function.comp_def]

theorem merge_elemIds (a b : FemModel) :
    (a.merge b).elemIds =
      a.elemIds ++ b.elemIds.map (applyMap (a.mergeElemMap b)) := by
  simp [FemModel.merge, FemModel.elemIds, List.map_map, Function.comp_def]

theorem remap_ty (nmap emap : List (Nat × Nat)) (s : FemSet) :
    (FemSet.remap nmap emap s).ty = s.ty := by
  rcases s with ⟨n, ty, ms⟩
  cases ty <;> rfl

theorem remap_name (nmap emap : List (Nat × Nat)) (s : FemSet) :
    (FemSet.remap nmap emap s).name = s.name := by
  rcases s with ⟨n, ty, ms⟩
  cases ty <;> rfl

theorem remap_members_nset (nmap emap : List (Nat × Nat)) (s : FemSet)
    (h : s.ty = .nset) :
    (FemSet.remap nmap emap s).members = s.members.map (applyMap nmap) := by
  rcases s with ⟨n, ty, ms⟩
  cases ty
  · rfl
  · cases h

theorem remap_members_elset (nmap emap : List (Nat × Nat)) (s : FemSet)
    (h : s.ty = .elset) :
    (FemSet.remap nmap emap s).members = s.members.map (applyMap emap) := by
  rcases s with ⟨n, ty, ms⟩
  cases ty
  · cases h
  · rfl

theorem merge_nodes (a b : FemModel) :
    (a.merge b).nodes = a.nodes ++ b.nodes.map fun n =>
      { n with id := applyMap (a.mergeNodeMap b) n.id } :=
  rfl

theorem merge_elements (a b : FemModel) :
    (a.merge b).elements = a.elements ++ b.elements.map fun e =>
      { e with
        id := applyMap (a.mergeElemMap b) e.id
        conn := e.conn.map (applyMap (a.mergeNodeMap b)) } :=
  rfl

theorem merge_sets (a b : FemModel) :
    (a.merge b).sets =
      a.sets ++ b.sets.map (FemSet.remap (a.mergeNodeMap b) (a.mergeElemMap b)) :=
  rfl

theorem mem_merge_nodeIds_left {a b : FemModel} {i : Nat} (h : i ∈ a.nodeIds) :
    i ∈ (a.merge b).nodeIds := by
  rw [merge_nodeIds]
  exact List.mem_append_left _ h

theorem mem_merge_nodeIds_right {a b : FemModel} {i : Nat} (h : i ∈ b.nodeIds) :
    applyMap (a.mergeNodeMap b) i ∈ (a.merge b).nodeIds := by
  rw [merge_nodeIds]
  exact List.mem_append_right _ (List.mem_map_of_mem _ h)

theorem mem_merge_elemIds_left {a b : FemModel} {i : Nat} (h : i ∈ a.elemIds) :
    i ∈ (a.merge b).elemIds := by
  rw [merge_elemIds]
  exact List.mem_append_left _ h

theorem mem_merge_elemIds_right {a b : FemModel} {i : Nat} (h : i ∈ b.elemIds) :
    applyMap (a.mergeElemMap b) i ∈ (a.merge b).elemIds := by
  rw [merge_elemIds]
  exact List.mem_append_right _ (List.mem_map_of_mem _ h)

theorem hasSet_merge_left {a b : FemModel} {ty : SetType} {n : String}
    (h : a.hasSet ty n) : (a.merge b).hasSet ty n := by
  obtain ⟨s, hs, hty, hname⟩ := h
  exact ⟨s, by rw [merge_sets]; exact List.mem_append_left _ hs, hty, hname⟩

theorem hasSet_merge_right {a b : FemModel} {ty : SetType} {n : String}
    (h : b.hasSet ty n) : (a.merge b).hasSet ty n := by
  obtain ⟨s, hs, hty, hname⟩ := h
  refine ⟨FemSet.remap (a.mergeNodeMap b) (a.mergeElemMap b) s,
    by rw [merge_sets]; exact List.mem_append_right _ (List.mem_map_of_mem _ hs),
    (remap_ty _ _ _).trans hty, (remap_name _ _ _).trans hname⟩

theorem hasSetNamed_merge_left {a b : FemModel} {n : String}
    (h : a.hasSetNamed n) : (a.merge b).hasSetNamed n := by
  obtain ⟨s, hs, hname⟩ := h
  exact ⟨s, by rw [merge_sets]; exact List.mem_append_left _ hs, hname⟩

theorem hasSetNamed_merge_right {a b : FemModel} {n : String}
    (h : b.hasSetNamed n) : (a.merge b).hasSetNamed n := by
  obtain ⟨s, hs, hname⟩ := h
  exact ⟨FemSet.remap (a.mergeNodeMap b) (a.mergeElemMap b) s,
    by rw [merge_sets]; exact List.mem_append_right _ (List.mem_map_of_mem _ hs),
    (remap_name _ _ _).trans hname⟩

theorem mergeNode_used_lt (a b : FemModel) :
    ∀ x ∈ a.nodeIds, x < maxIdOf (a.nodeIds ++ b.nodeIds) + 1 := fun _ hx =>
  Nat.lt_succ_of_le (mem_le_maxIdOf (List.mem_append_left _ hx))

theorem mergeNode_olds_lt (a b : FemModel) :
    ∀ x ∈ b.nodeIds, x < maxIdOf (a.nodeIds ++ b.nodeIds) + 1 := fun _ hx =>
  Nat.lt_succ_of_le (mem_le_maxIdOf (List.mem_append_right _ hx))

theorem mergeElem_used_lt (a b : FemModel) :
    ∀ x ∈ a.elemIds, x < maxIdOf (a.elemIds ++ b.elemIds) + 1 := fun _ hx =>
  Nat.lt_succ_of_le (mem_le_maxIdOf (List.mem_append_left _ hx))

theorem mergeElem_olds_lt (a b : FemModel) :
    ∀ x ∈ b.elemIds, x < maxIdOf (a.elemIds ++ b.elemIds) + 1 := fun _ hx =>
  Nat.lt_succ_of_le (mem_le_maxIdOf (List.mem_append_right _ hx))

/-! ### Claim theorems -/

/-- C1: For every pair of sub-models combined by the Model Merger, the
resulting merged model satisfies: every set, boundary-condition, and load
reference resolves to a node or element that exists in the merged model, and
no two nodes share an identifier and no two elements share an identifier. -/
theorem C1_merge_preserves_integrity (a b : FemModel)
    (hav : a.validRefs) (hau : a.uniqueIds)
    (hbv : b.validRefs) (hbu : b.uniqueIds) :
    (a.merge b).validRefs ∧ (a.merge b).uniqueIds := by
  obtain ⟨hae, has, hab, hal, hast⟩ := hav
  obtain ⟨hbe, hbs, hbb, hbl, hbst⟩ := hbv
  constructor
  · refine ⟨?_, ?_, ?_, ?_, ?_⟩
    · intro e he
      rw [merge_elements] at he
      rcases List.mem_append.mp he with h | h
      · intro i hi
        exact mem_merge_nodeIds_left (hae e h i hi)
      · obtain ⟨e0, he0, rfl⟩ := List.mem_map.mp h
        intro i hi
        obtain ⟨j, hj, rfl⟩ := List.mem_map.mp hi
        exact mem_merge_nodeIds_right (hbe e0 he0 j hj)
    · intro s hs
      rw [merge_sets] at hs
      rcases List.mem_append.mp hs with h | h
      · intro i hi
        have hres := has s h i hi
        cases hty : s.ty with
        | nset =>
          rw [hty] at hres
          exact mem_merge_nodeIds_left hres
        | elset =>
          rw [hty] at hres
          exact mem_merge_elemIds_left hres
      · obtain ⟨s0, hs0, rfl⟩ := List.mem_map.mp h
        intro i hi
        cases hty : s0.ty with
        | nset =>
          rw [remap_members_nset _ _ _ hty] at hi
          obtain ⟨j, hj, rfl⟩ := List.mem_map.mp hi
          have hres := hbs s0 hs0 j hj
          rw [hty] at hres
          rw [(remap_ty _ _ _).trans hty]
          exact mem_merge_nodeIds_right hres
        | elset =>
          rw [remap_members_elset _ _ _ hty] at hi
          obtain ⟨j, hj, rfl⟩ := List.mem_map.mp hi
          have hres := hbs s0 hs0 j hj
          rw [hty] at hres
          rw [(remap_ty _ _ _).trans hty]
          exact mem_merge_elemIds_right hres
    · intro bc hbc
      rcases List.mem_append.mp hbc with h | h
      · exact hasSet_merge_left (hab bc h)
      · exact hasSet_merge_right (hbb bc h)
    · intro l hl
      rcases List.mem_append.mp hl with h | h
      · exact hasSetNamed_merge_left (hal l h)
      · exact hasSetNamed_merge_right (hbl l h)
    · intro st hst l hl
      rcases List.mem_append.mp hst with h | h
      · exact hasSetNamed_merge_left (hast st h l hl)
      · exact hasSetNamed_merge_right (hbst st h l hl)
  · constructor
    · rw [merge_nodeIds]
      unfold FemModel.mergeNodeMap
      rw [map_applyMap_eq_snd hbu.1]
      refine List.Nodup.append hau.1 ?_ ?_
      · exact buildMapping_snd_nodup (mergeNode_used_lt a b)
          (mergeNode_olds_lt a b) hbu.1
      · intro x hxa hxm
        exact buildMapping_snd_not_mem_used (mergeNode_used_lt a b) x hxm hxa
    · rw [merge_elemIds]
      unfold FemModel.mergeElemMap
      rw [map_applyMap_eq_snd hbu.2]
      refine List.Nodup.append hau.2 ?_ ?_
      · exact buildMapping_snd_nodup (mergeElem_used_lt a b)
          (mergeElem_olds_lt a b) hbu.2
      · intro x hxa hxm
        exact buildMapping_snd_not_mem_used (mergeElem_used_lt a b) x hxm hxa

/-- Witness for C1 at two concrete overlapping-numbered sub-models. -/
theorem C1_merge_preserves_integrity_witness :
    (exampleModel.merge exampleModelB).validRefs ∧
      (exampleModel.merge exampleModelB).uniqueIds :=
  C1_merge_preserves_integrity exampleModel exampleModelB
    (by decide) (by decide) (by decide) (by decide)

/-- C9: Merging may rewrite node and element identifiers but leaves every
node's coordinates and every element's type and connectivity (up to the
identifier mapping) unchanged; any identifier that does not collide with an
already-merged identifier is kept unchanged. -/
theorem C9_merge_frame (a b : FemModel) :
    (∀ n ∈ a.nodes, n ∈ (a.merge b).nodes) ∧
    (∀ e ∈ a.elements, e ∈ (a.merge b).elements) ∧
    (∀ n ∈ b.nodes,
      (⟨applyMap (a.mergeNodeMap b) n.id, n.x, n.y, n.z⟩ : Node)
        ∈ (a.merge b).nodes) ∧
    (∀ e ∈ b.elements,
      (⟨applyMap (a.mergeElemMap b) e.id, e.etype,
        e.conn.map (applyMap (a.mergeNodeMap b))⟩ : Element)
        ∈ (a.merge b).elements) ∧
    (∀ n ∈ b.nodes, n.id ∉ a.nodeIds →
      applyMap (a.mergeNodeMap b) n.id = n.id) ∧
    (∀ e ∈ b.elements, e.id ∉ a.elemIds →
      applyMap (a.mergeElemMap b) e.id = e.id) := by
  refine ⟨?_, ?_, ?_, ?_, ?_, ?_⟩
  · intro n hn
    rw [merge_nodes]
    exact List.mem_append_left _ hn
  · intro e he
    rw [merge_elements]
    exact List.mem_append_left _ he
  · intro n hn
    rw [merge_nodes]
    exact List.mem_append_right _ (List.mem_map_of_mem _ hn)
  · intro e he
    rw [merge_elements]
    exact List.mem_append_right _ (List.mem_map_of_mem _ he)
  · intro n hn hnotin
    unfold FemModel.mergeNodeMap
    exact applyMap_keep (List.mem_map_of_mem _ hn) hnotin
  · intro e he hnotin
    unfold FemModel.mergeElemMap
    exact applyMap_keep (List.mem_map_of_mem _ he) hnotin

/-- Witness for C9: in the concrete merge, node id 7 of the second sub-model
does not collide with the first and is kept unchanged. -/
theorem C9_merge_frame_witness :
    applyMap (exampleModel.mergeNodeMap exampleModelB) 7 = 7 :=
  (C9_merge_frame exampleModel exampleModelB).2.2.2.2.1
    ⟨7, 7, 0, 0⟩ (by decide) (by decide)

/-- C2: for every unmodified model and dialect, running `write_deck` twice
on the same model produces byte-identical output; the writer is a pure
function of the model's insertion-ordered containers, so any two runs agree. -/
theorem C2_write_deck_deterministic (d : Dialect) (m : FemModel)
    (o1 o2 : Except WriteError String)
    (h1 : writeDeck d m = o1) (h2 : writeDeck d m = o2) : o1 = o2 := by
  rw [← h1, ← h2]

/-- Witness for C2 at the concrete example model. -/
theorem C2_write_deck_deterministic_witness :
    writeDeck Dialect.staticSolverA exampleModel =
      writeDeck Dialect.staticSolverA exampleModel :=
  C2_write_deck_deterministic Dialect.staticSolverA exampleModel _ _ rfl rfl

/-- C5: adding a boundary condition whose referenced set does not exist in
the model fails with `ReferenceError` at that very call (eagerly, before any
deck is written). -/
theorem C5_add_bc_dangling_reference (m : FemModel) (bc : Bc)
    (h : ¬ m.hasSet .nset bc.setName) :
    m.add_bc bc = .error (.referenceError bc.setName) := by
  unfold FemModel.add_bc
  rw [if_neg h]

/-- Witness for C5: a BC referencing a nonexistent set on the example model. -/
theorem C5_add_bc_dangling_reference_witness :
    exampleModel.add_bc ⟨"BadBc", "no_such_set", [1]⟩ =
      .error (.referenceError "no_such_set") :=
  C5_add_bc_dangling_reference exampleModel ⟨"BadBc", "no_such_set", [1]⟩
    (by decide)

/-- C7: when the timeout elapses before the solver process exits, the
outcome is `TimedOut`, the child process is terminated, and exactly one
invocation was performed (no silent retry). -/
theorem C7_timeout_terminates (p : SolverProc) (t : Nat) (h : t < p.duration) :
    (execute p t).outcome = .timedOut ∧
      (execute p t).childTerminated = true ∧
      (execute p t).invocations = 1 := by
  unfold execute
  rw [if_pos h]
  exact ⟨rfl, rfl, rfl⟩

/-- Witness for C7, Scenario D of §8: a 1-second timeout against a solver
run that would take 10 seconds. -/
theorem C7_timeout_terminates_witness :
    (execute ⟨10, 0, true⟩ 1).outcome = .timedOut ∧
      (execute ⟨10, 0, true⟩ 1).childTerminated = true ∧
      (execute ⟨10, 0, true⟩ 1).invocations = 1 :=
  C7_timeout_terminates ⟨10, 0, true⟩ 1 (by decide)

/-- C4: if the solver child process exits with status zero in time but the
expected result artifact is absent, the outcome is `Failed` with kind
`MissingArtifact` and never `Succeeded`; `Succeeded` is only reported when
the artifact is located. -/
theorem C4_missing_artifact_never_succeeds (p : SolverProc) (t : Nat) :
    (p.exitCode = 0 → p.producesArtifact = false → p.duration ≤ t →
      (execute p t).outcome = .failed .missingArtifact) ∧
    ((execute p t).outcome = .succeeded → p.producesArtifact = true) := by
  constructor
  · intro h0 hart hdur
    unfold execute
    rw [if_neg (by omega), if_neg (by simp [h0]), if_neg (by simp [hart])]
  · intro hs
    unfold execute at hs
    by_cases h1 : t < p.duration
    · rw [if_pos h1] at hs
      simp at hs
    · rw [if_neg h1] at hs
      by_cases h2 : p.exitCode ≠ 0
      · rw [if_pos h2] at hs
        simp at hs
      · rw [if_neg h2] at hs
        by_cases h3 : p.producesArtifact = true
        · exact h3
        · rw [if_neg h3] at hs
          simp at hs

/-- Witness for C4: a process that exits zero in time but produces no
artifact is classified `Failed MissingArtifact`. -/
theorem C4_missing_artifact_never_succeeds_witness :
    (execute ⟨5, 0, false⟩ 10).outcome = .failed .missingArtifact :=
  (C4_missing_artifact_never_succeeds ⟨5, 0, false⟩ 10).1 rfl rfl (by decide)

/-- If the referenced node-set exists, `add_bc` succeeds. -/
theorem add_bc_ok (m : FemModel) (bc : Bc) (h : m.hasSet .nset bc.setName) :
    ∃ m2, m.add_bc bc = .ok m2 := by
  unfold FemModel.add_bc
  rw [if_pos h]
  exact ⟨_, rfl⟩

/-- If the referenced set exists, `add_load` succeeds. -/
theorem add_load_ok (m : FemModel) (l : Load) (h : m.hasSetNamed l.setName) :
    ∃ m2, m.add_load l = .ok m2 := by
  unfold FemModel.add_load
  rw [if_pos h]
  exact ⟨_, rfl⟩

/-- If the named step and the load's referenced set both exist,
`add_load_to_step` succeeds. -/
theorem add_load_to_step_ok (m : FemModel) (stepName : String) (l : Load)
    (hst : ∃ st ∈ m.steps, st.name = stepName)
    (hset : m.hasSetNamed l.setName) :
    ∃ m2, m.add_load_to_step stepName l = .ok m2 := by
  unfold FemModel.add_load_to_step
  rw [dif_pos hst, if_pos hset]
  exact ⟨_, rfl⟩

/-- C10: `add_set` and `add_step` each return the object just added; the
returned set can be passed directly as the set reference of a subsequent Bc
or Load, and the returned step accepts adding a load so that loads are
attached per step. -/
theorem C10_returned_handles_compose (m : FemModel) (s : FemSet)
    (m1 : FemModel) (s1 : FemSet) (hadd : m.add_set s = .ok (m1, s1)) :
    s1 = s ∧ s1 ∈ m1.sets ∧
    (s1.ty = .nset → ∀ bcName dofs,
      ∃ m2, m1.add_bc ⟨bcName, s1.name, dofs⟩ = .ok m2) ∧
    (∀ lname lt mag, ∃ m2, m1.add_load ⟨lname, lt, mag, s1.name⟩ = .ok m2) ∧
    (∀ st m2 st1, m1.add_step st = .ok (m2, st1) → st1 = st ∧
      ∀ lname lt mag,
        ∃ m3, m2.add_load_to_step st1.name ⟨lname, lt, mag, s1.name⟩ = .ok m3) := by
  unfold FemModel.add_set at hadd
  by_cases hdup : m.hasSet s.ty s.name
  · rw [if_pos hdup] at hadd
    cases hadd
  · rw [if_neg hdup] at hadd
    by_cases hmem : ∀ i ∈ s.members, i ∈ m.idsFor s.ty
    · rw [dif_pos hmem, Except.ok.injEq, Prod.mk.injEq] at hadd
      obtain ⟨hm1, hs1⟩ := hadd
      subst hm1
      subst hs1
      refine ⟨rfl, List.mem_append_right _ (List.mem_singleton_self s),
        ?_, ?_, ?_⟩
      · intro hty bcName dofs
        exact add_bc_ok _ _
          ⟨s, List.mem_append_right _ (List.mem_singleton_self s), hty, rfl⟩
      · intro lname lt mag
        exact add_load_ok _ _
          ⟨s, List.mem_append_right _ (List.mem_singleton_self s), rfl⟩
      · intro st m2 st1 hstep
        unfold FemModel.add_step at hstep
        rw [Except.ok.injEq, Prod.mk.injEq] at hstep
        obtain ⟨hm2, hst1⟩ := hstep
        subst hm2
        subst hst1
        refine ⟨rfl, ?_⟩
        intro lname lt mag
        exact add_load_to_step_ok _ _ _
          ⟨st, List.mem_append_right _ (List.mem_singleton_self st), rfl⟩
          ⟨s, List.mem_append_right _ (List.mem_singleton_self s), rfl⟩
    · rw [dif_neg hmem] at hadd
      cases hadd

/-- Witness for C10: the set returned by `add_set` on the example model is
directly usable as the reference of a new boundary condition. -/
theorem C10_returned_handles_compose_witness :
    ∃ m2, exampleModelWithSet.add_bc ⟨"MidBc", exNewSet.name, [1, 2]⟩ = .ok m2 :=
  ((C10_returned_handles_compose exampleModel exNewSet exampleModelWithSet
      exNewSet rfl).2.2.1) rfl "MidBc" [1, 2]

/-! ### Deck-reparse lemmas -/

theorem scanSets_header_none (ty : SetType) (n : String) (rest : List DeckRec) :
    scanSets (.setHeader ty n :: rest) none = scanSets rest (some ⟨n, ty, []⟩) :=
  rfl

theorem scanSets_header_some (ty : SetType) (n : String) (rest : List DeckRec)
    (s : FemSet) :
    scanSets (.setHeader ty n :: rest) (some s) =
      s :: scanSets rest (some ⟨n, ty, []⟩) :=
  rfl

theorem scanSets_member_some (i : Nat) (rest : List DeckRec) (s : FemSet) :
    scanSets (.setMember i :: rest) (some s) =
      scanSets rest (some ⟨s.name, s.ty, s.members ++ [i]⟩) :=
  rfl

theorem scanSets_other_none {r : DeckRec} (h : r.isSetRec = false)
    (rest : List DeckRec) :
    scanSets (r :: rest) none = scanSets rest none := by
  cases r with
  | setHeader ty n => simp [DeckRec.isSetRec] at h
  | setMember i => simp [DeckRec.isSetRec] at h
  | header d => rfl
  | nodeRec i x y z => rfl
  | elementRec i t c => rfl
  | materialRec n e d => rfl
  | bcRec n s dofs => rfl
  | loadRec n s mag => rfl
  | stepRec n k => rfl

theorem scanSets_other_some {r : DeckRec} (h : r.isSetRec = false)
    (rest : List DeckRec) (s : FemSet) :
    scanSets (r :: rest) (some s) = s :: scanSets rest none := by
  cases r with
  | setHeader ty n => simp [DeckRec.isSetRec] at h
  | setMember i => simp [DeckRec.isSetRec] at h
  | header d => rfl
  | nodeRec i x y z => rfl
  | elementRec i t c => rfl
  | materialRec n e d => rfl
  | bcRec n s dofs => rfl
  | loadRec n s mag => rfl
  | stepRec n k => rfl

theorem scanSets_skip_none (rs ts : List DeckRec)
    (h : ∀ r ∈ rs, r.isSetRec = false) :
    scanSets (rs ++ ts) none = scanSets ts none := by
  induction rs with
  | nil => rfl
  | cons r rest ih =>
    rw [List.cons_append,
      scanSets_other_none (h r (List.mem_cons_self r rest))]
    exact ih fun x hx => h x (List.mem_cons_of_mem _ hx)

theorem scanSets_none_of_no_set_recs (ts : List DeckRec)
    (h : ∀ r ∈ ts, r.isSetRec = false) :
    scanSets ts none = [] := by
  have := scanSets_skip_none ts [] h
  rwa [List.append_nil] at this

theorem scanSets_close_some (ts : List DeckRec)
    (h : ∀ r ∈ ts, r.isSetRec = false) (s : FemSet) :
    scanSets ts (some s) = [s] := by
  cases ts with
  | nil => rfl
  | cons r rest =>
    rw [scanSets_other_some (h r (List.mem_cons_self r rest))]
    rw [scanSets_none_of_no_set_recs rest
      fun x hx => h x (List.mem_cons_of_mem _ hx)]

theorem scanSets_absorb_members (name : String) (ty : SetType) :
    ∀ (members acc : List Nat) (rest : List DeckRec),
      scanSets (members.map DeckRec.setMember ++ rest) (some ⟨name, ty, acc⟩) =
        scanSets rest (some ⟨name, ty, acc ++ members⟩) := by
  intro members
  induction members with
  | nil => intro acc rest; rw [List.map_nil, List.nil_append, List.append_nil]
  | cons i ms ih =>
    intro acc rest
    rw [List.map_cons, List.cons_append, scanSets_member_some]
    rw [ih (acc ++ [i]) rest, List.append_assoc, List.singleton_append]

theorem scanSets_setRecords (ts : List DeckRec)
    (hts : ∀ r ∈ ts, r.isSetRec = false) :
    ∀ sets : List FemSet, scanSets (setRecords sets ++ ts) none = sets := by
  intro sets
  induction sets with
  | nil => exact scanSets_none_of_no_set_recs ts hts
  | cons s ss ih =>
    rw [setRecords, List.cons_append, scanSets_header_none, List.append_assoc,
      scanSets_absorb_members, List.nil_append]
    cases ss with
    | nil =>
      rw [setRecords, List.nil_append]
      exact scanSets_close_some ts hts s
    | cons s2 ss2 =>
      rw [setRecords, List.cons_append, scanSets_header_some]
      rw [setRecords, List.cons_append, scanSets_header_none] at ih
      rw [ih]

theorem preRecords_no_set_recs (d : Dialect) (m : FemModel) :
    ∀ r ∈ preRecords d m, r.isSetRec = false := by
  intro r hr
  unfold preRecords at hr
  rcases List.mem_cons.mp hr with h | h
  · subst h; rfl
  · rcases List.mem_append.mp h with h | h
    · obtain ⟨n, _, rfl⟩ := List.mem_map.mp h
      rfl
    · rcases List.mem_append.mp h with h | h
      · obtain ⟨e, _, rfl⟩ := List.mem_map.mp h
        rfl
      · obtain ⟨mt, _, rfl⟩ := List.mem_map.mp h
        rfl

theorem postRecords_no_set_recs (m : FemModel) :
    ∀ r ∈ postRecords m, r.isSetRec = false := by
  intro r hr
  unfold postRecords at hr
  rcases List.mem_append.mp hr with h | h
  · obtain ⟨bc, _, rfl⟩ := List.mem_map.mp h
    rfl
  · rcases List.mem_append.mp h with h | h
    · obtain ⟨l, _, rfl⟩ := List.mem_map.mp h
      rfl
    · obtain ⟨st, _, rfl⟩ := List.mem_map.mp h
      rfl

/-- C8: for every set in a model, writing the deck and reparsing it with the
dialect's reader recovers exactly the same ordered member list — indeed the
whole insertion-ordered set list — as the original model. -/
theorem C8_write_then_reparse_sets (d : Dialect) (m : FemModel)
    (recs : List DeckRec) (h : writeDeckRecords d m = .ok recs) :
    parseDeckSets recs = m.sets := by
  unfold writeDeckRecords at h
  cases hf : m.steps.find? (fun st => !(d.supportsStep st.kind)) with
  | some st =>
    rw [hf] at h
    cases h
  | none =>
    rw [hf] at h
    rw [Except.ok.injEq] at h
    subst h
    unfold parseDeckSets
    rw [scanSets_skip_none _ _ (preRecords_no_set_recs d m)]
    exact scanSets_setRecords _ (postRecords_no_set_recs m) m.sets

/-- Witness for C8: reparsing the deck solver A writes for the example model
recovers its sets exactly. -/
theorem C8_write_then_reparse_sets_witness :
    parseDeckSets exampleDeckRecs = exampleModel.sets :=
  C8_write_then_reparse_sets Dialect.staticSolverA exampleModel
    exampleDeckRecs rfl

/-- C6: a model containing a step the selected dialect cannot express makes
`write_deck` fail with `UnsupportedFeatureError` naming an offending step;
the step is never silently dropped and no deck text is produced at all. -/
theorem C6_write_deck_unsupported (d : Dialect) (m : FemModel)
    (h : ∃ st ∈ m.steps, d.supportsStep st.kind = false) :
    ∃ st ∈ m.steps, d.supportsStep st.kind = false ∧
      writeDeck d m = .error (.unsupportedFeature st.name) := by
  cases hf : m.steps.find? (fun st => !(d.supportsStep st.kind)) with
  | none =>
    exfalso
    obtain ⟨st, hmem, hsup⟩ := h
    have hnone := List.find?_eq_none.mp hf st hmem
    simp [hsup] at hnone
  | some st =>
    refine ⟨st, List.mem_of_find?_eq_some hf, ?_, ?_⟩
    · have := List.find?_some hf
      simpa using this
    · unfold writeDeck writeDeckRecords
      rw [hf]
      rfl

/-- Witness for C6: solver B cannot express the example model's
eigenfrequency step, so its deck write fails naming a step. -/
theorem C6_write_deck_unsupported_witness :
    ∃ st ∈ exampleModel.steps,
      Dialect.staticSolverB.supportsStep st.kind = false ∧
        writeDeck Dialect.staticSolverB exampleModel =
          .error (.unsupportedFeature st.name) :=
  C6_write_deck_unsupported Dialect.staticSolverB exampleModel
    ⟨⟨"Eigen", .eigen 3, []⟩, by decide, rfl⟩

/-- C3: for an eigenfrequency step requesting `k` modes, `read_results`
returns modes sorted by non-decreasing frequency and at most `k` modes,
never more; when fewer than `k` modes were found, it reports
`IncompleteResultsError` — a recoverable warning — and still returns the
partial modes (a permutation of everything found). -/
theorem C3_read_results_eigen_modes (k : Nat) (found : List EigenMode) :
    ((readEigenResults k found).modes).Sorted modeLe ∧
    ((readEigenResults k found).modes).length ≤ k ∧
    ((readEigenResults k found).isIncomplete = decide (found.length < k)) ∧
    ((readEigenResults k found).isIncomplete = true →
      (readEigenResults k found).modes.Perm found) := by
  by_cases h : found.length < k
  · simp only [readEigenResults, if_pos h, EigenReadOutcome.modes,
      EigenReadOutcome.isIncomplete]
    refine ⟨List.sorted_insertionSort modeLe found, ?_, by simp [h],
      fun _ => List.perm_insertionSort modeLe found⟩
    rw [List.length_insertionSort]
    omega
  · simp only [readEigenResults, if_neg h, EigenReadOutcome.modes,
      EigenReadOutcome.isIncomplete]
    refine ⟨?_, ?_, by simp [h], ?_⟩
    · exact List.Pairwise.sublist (List.take_sublist _ _)
        (List.sorted_insertionSort modeLe found)
    · exact List.length_take_le _ _
    · intro hinc
      cases hinc

/-- Witness for C3: requesting 5 modes of a 3-mode artifact reports the
recoverable incomplete condition while returning all found modes. -/
theorem C3_read_results_eigen_modes_witness :
    (readEigenResults 5 exampleModes).modes.Perm exampleModes :=
  (C3_read_results_eigen_modes 5 exampleModes).2.2.2 rfl

end Adapy
